import Mathlib

/-!
Verification of `cairocffi/pixbuf.py`: decoding images through GDK-PixBuf and
converting the decoded bitmap to a cairo `ImageSurface`.

The embedding models the module's pure algorithmic content directly from the
source.  External C libraries (the gdk-pixbuf loader calls, cairo's PNG
loader, the GDK blit) appear as explicit outcome records or oracle
parameters; anything the source relies on but does not contain is marked
`Modelled from the spec:` in its doc comment.

Python's extended-slice reads (`l[a:b:k]`) and writes (`l[a:b:k] = vs`), the
workhorses of `pixbuf_to_cairo_slices`, are given exact functional semantics
(`pyslice`, `pyassign`).
-/

set_option maxHeartbeats 1000000

namespace Cairocffi

/-- `GDK_COLORSPACE_RGB`, the only colorspace value gdk-pixbuf defines. -/
def GDK_COLORSPACE_RGB : Nat := 0

/-- A decoded GdkPixbuf as `pixbuf.py` reads it through its accessor proxy:
metadata queries plus the raw pixel bytes
(`get_pixels()` over `get_byte_length()` bytes, copied by `pixels[:]`). -/
structure Pixbuf where
  colorspace : Nat
  n_channels : Nat
  bits_per_sample : Nat
  has_alpha : Bool
  width : Nat
  height : Nat
  rowstride : Nat
  pixels : List Nat
deriving DecidableEq

/-- A `GError` as `handle_g_error` inspects it: its `message` field is either
NULL (`none`) or a string (already decoded from utf8). -/
structure GError where
  message : Option String
deriving DecidableEq

/-- A raised Python exception: a failed `assert`, or
`ImageLoadingError(message)` (the module's decode-error class). -/
inductive PyError where
  | assertionError : PyError
  | imageLoadingError : String → PyError
deriving DecidableEq

/-- Cairo pixel formats used by the module: `FORMAT_ARGB32` (premultiplied
alpha) and `FORMAT_RGB24` (opaque color stored in 32-bit words). -/
inductive CairoFormat where
  | ARGB32 : CairoFormat
  | RGB24 : CairoFormat
deriving DecidableEq

/-- An `ImageSurface` as the converters build one: its format tag, size,
row stride and pixel bytes. -/
structure CairoSurface where
  format : CairoFormat
  width : Nat
  height : Nat
  stride : Nat
  data : List Nat
deriving DecidableEq

/-- Modelled from the spec: `ImageSurface.format_stride_for_width
(constants.FORMAT_RGB24, width)` is computed by the external cairo library;
for this 32-bit-per-pixel format with cairo's 4-byte row alignment the
stride is exactly `4 * width`. -/
def format_stride_for_width (width : Nat) : Nat := 4 * width

/-- Python's extended-slice read `l[start:stop:step]` for `step ≥ 1` and
in-range nonnegative bounds: the elements at `start, start+step, …` below
`min stop l.length`. -/
def pyslice (l : List Nat) (start stop step : Nat) : List Nat :=
  let stop' := min stop l.length
  let n := if start < stop' then (stop' - start + step - 1) / step else 0
  (List.range n).map (fun i => l.getD (start + i * step) 0)

/-- Python's extended-slice assignment `l[start:stop:step] = vs` for
`step ≥ 1` and in-range nonnegative bounds, when `vs` has the slice's
length (as it always does in this module): position `start + i*step` (below
`min stop l.length`) takes `vs[i]`, every other position keeps its value. -/
def pyassign (l : List Nat) (start stop step : Nat) (vs : List Nat) : List Nat :=
  let stop' := min stop l.length
  (List.range l.length).map (fun j =>
    if start ≤ j ∧ j < stop' ∧ (j - start) % step = 0 then
      vs.getD ((j - start) / step) (l.getD j 0)
    else l.getD j 0)

/-- One iteration of the `for y in range(height)` loop of
`pixbuf_to_cairo_slices` (pixbuf.py lines 165–183): read the red, green and
blue streams of source row `y` with stride 3, write them with stride 4 into
the destination row, interleaved with an opaque alpha byte, in the
endianness-dependent order. -/
def convertRow (big_endian : Bool) (pixels : List Nat) (rowstride width : Nat)
    (data : List Nat) (y : Nat) : List Nat :=
  let pixbuf_row_length := width * 3
  let cairo_stride := format_stride_for_width width
  let cairo_row_length := width * 4
  let alpha := List.replicate width 255
  let offset := rowstride * y
  let nd := offset + pixbuf_row_length
  let red := pyslice pixels offset nd 3
  let green := pyslice pixels (offset + 1) nd 3
  let blue := pyslice pixels (offset + 2) nd 3
  let offset2 := cairo_stride * y
  let nd2 := offset2 + cairo_row_length
  if big_endian then
    pyassign (pyassign (pyassign (pyassign data offset2 nd2 4 alpha)
      (offset2 + 1) nd2 4 red) (offset2 + 2) nd2 4 green) (offset2 + 3) nd2 4 blue
  else
    pyassign (pyassign (pyassign (pyassign data (offset2 + 3) nd2 4 alpha)
      (offset2 + 2) nd2 4 red) (offset2 + 1) nd2 4 green) offset2 nd2 4 blue

/-- The destination buffer built by `pixbuf_to_cairo_slices` (lines
160–183): `data = bytearray(cairo_stride * height)` (zero-filled) run
through the row loop for `y in range(height)`.  `big_endian` is
`sys.byteorder == 'big'`. -/
def slicesData (big_endian : Bool) (p : Pixbuf) : List Nat :=
  (List.range p.height).foldl
    (convertRow big_endian p.pixels p.rowstride p.width)
    (List.replicate (format_stride_for_width p.width * p.height) 0)

/-- `pixbuf_to_cairo_slices` (lines 140–187): assert the three preconditions
(RGB colorspace, 3 channels, 8 bits per sample), build the byte-swapped
buffer, and return a `FORMAT_RGB24` `ImageSurface` of it.  A failed `assert`
raises `AssertionError`. -/
def pixbuf_to_cairo_slices (big_endian : Bool) (p : Pixbuf) :
    Except PyError CairoSurface :=
  if p.colorspace = GDK_COLORSPACE_RGB then
    if p.n_channels = 3 then
      if p.bits_per_sample = 8 then
        Except.ok ⟨CairoFormat.RGB24, p.width, p.height,
          format_stride_for_width p.width, slicesData big_endian p⟩
      else Except.error PyError.assertionError
    else Except.error PyError.assertionError
  else Except.error PyError.assertionError

/-- Reading four consecutive destination bytes as one native-endian 32-bit
word: on a big-endian machine the first byte is most significant, on a
little-endian machine the last byte is. -/
def wordAt (big_endian : Bool) (data : List Nat) (base : Nat) : Nat :=
  if big_endian then
    data.getD base 0 * 2 ^ 24 + data.getD (base + 1) 0 * 2 ^ 16 +
      data.getD (base + 2) 0 * 2 ^ 8 + data.getD (base + 3) 0
  else
    data.getD (base + 3) 0 * 2 ^ 24 + data.getD (base + 2) 0 * 2 ^ 16 +
      data.getD (base + 1) 0 * 2 ^ 8 + data.getD base 0

/-- The message `handle_g_error` builds from a present `GError`: the native
message prefixed with `'Pixbuf error: '`, or the generic `'Pixbuf error'`
when the native message is NULL. -/
def gErrorMessage (e : GError) : String :=
  match e.message with
  | some m => "Pixbuf error: " ++ m
  | none => "Pixbuf error"

/-- `handle_g_error(error, return_value)` (lines 41–55): assert
`bool(return_value) == (error == NULL)`; if an error is present, free it and
raise `ImageLoadingError` with the extracted message; otherwise fall through
returning `None`.  `error` is the dereferenced `GError **` slot (`none` for
NULL), `return_value` the truthiness of the paired call's return value. -/
def handle_g_error (error : Option GError) (return_value : Bool) :
    Except PyError Unit :=
  if return_value = error.isNone then
    match error with
    | some e => Except.error (PyError.imageLoadingError (gErrorMessage e))
    | none => Except.ok ()
  else Except.error PyError.assertionError

/-- The outcome of one decode session's external gdk-pixbuf loader calls, as
`decode_to_pixbuf` observes them: each fallible call's return value and the
`GError` slot it may fill, plus the loader's detected format name (`none`
for NULL) and resulting pixbuf (`none` for NULL). -/
structure LoaderOutcome where
  writeRet : Bool
  writeError : Option GError
  closeRet : Bool
  closeError : Option GError
  formatName : Option String
  pixbuf : Option Pixbuf
deriving DecidableEq

/-- Python truthiness of an `int`-or-`None` argument: `None` and `0` are
falsy. -/
def truthy : Option Nat → Bool
  | none => false
  | some n => n != 0

/-- `decode_to_pixbuf(image_data, width, height)` (lines 69–102), with the
external loader's behaviour on a given byte string abstracted as
`loader_behaviour`.  Returns the size request forwarded by
`gdk_pixbuf_loader_set_size` (made only under `if width and height:`)
together with the call's result: the decoded pixbuf and detected format
name, or the raised exception.  The write and close steps each pass through
`handle_g_error`; a NULL pixbuf after success raises `ImageLoadingError`. -/
def decode_to_pixbuf (loader_behaviour : List Nat → LoaderOutcome)
    (image_data : List Nat) (width height : Option Nat) :
    Option (Nat × Nat) × Except PyError (Pixbuf × Option String) :=
  let L := loader_behaviour image_data
  let sizeRequest :=
    if truthy width && truthy height then
      some (width.getD 0, height.getD 0)
    else none
  let result :=
    match handle_g_error L.writeError L.writeRet with
    | Except.error e => Except.error e
    | Except.ok _ =>
      match handle_g_error L.closeError L.closeRet with
      | Except.error e => Except.error e
      | Except.ok _ =>
        match L.pixbuf with
        | none => Except.error (PyError.imageLoadingError
            "Not enough image data (got a NULL pixbuf.)")
        | some pb => Except.ok (pb, L.formatName)
  (sizeRequest, result)

/-- The three conversion strategies of the format converter. -/
inductive Strategy where
  | gdk : Strategy
  | slices : Strategy
  | png : Strategy
deriving DecidableEq

/-- The conditional expression of `decode_to_image_surface` (lines 121–124):
`pixbuf_to_cairo_gdk(pixbuf) if gdk is not None else
pixbuf_to_cairo_slices(pixbuf) if not pixbuf.get_has_alpha() else
pixbuf_to_cairo_png(pixbuf)`, reported as the strategy it dispatches to.
`gdk_available` is `gdk is not None`. -/
def selectedConversion (gdk_available : Bool) (p : Pixbuf) : Strategy :=
  if gdk_available then Strategy.gdk
  else if !p.has_alpha then Strategy.slices
  else Strategy.png

/-- The outcome of the external `gdk_pixbuf_save_to_buffer` call: its
`gboolean` return, the `GError` slot it may fill, and the encoded bytes it
places in the output buffer. -/
structure SaveToBufferOutcome where
  ret : Bool
  err : Option GError
  buffer : List Nat
deriving DecidableEq

/-- Modelled from the spec: `ImageSurface.create_from_png` is the target
surface system's own PNG loader (external cairo code, not in this module);
per the spec it natively understands premultiplied alpha and yields a
surface in the premultiplied 32-bit ARGB format (`FORMAT_ARGB32`). -/
structure PngLoader where
  load : List Nat → CairoSurface
  load_argb32 : ∀ bs, (load bs).format = CairoFormat.ARGB32

/-- `pixbuf_to_cairo_png(pixbuf)` (lines 190–204): call
`pixbuf.save_to_buffer(buffer, size, 'png', error, 'compression', '0',
NULL)` — re-encode to PNG with the single option `compression = 0` — run
the outcome through `handle_g_error`, then feed the encoded bytes to
`ImageSurface.create_from_png`.  `save_to_buffer` abstracts the external
call as a function of the format name and the option list. -/
def pixbuf_to_cairo_png
    (save_to_buffer : String → List (String × String) → SaveToBufferOutcome)
    (loader : PngLoader) : Except PyError CairoSurface :=
  let r := save_to_buffer "png" [("compression", "0")]
  match handle_g_error r.err r.ret with
  | Except.error e => Except.error e
  | Except.ok _ => Except.ok (loader.load r.buffer)

/-! Concrete instances used by the witness theorems. -/

/-- A 2×2 opaque red RGB pixbuf with the tight row stride 6. -/
def examplePixbuf : Pixbuf :=
  ⟨GDK_COLORSPACE_RGB, 3, 8, false, 2, 2, 6,
    [255, 0, 0, 255, 0, 0, 255, 0, 0, 255, 0, 0]⟩

/-- The same 2×2 opaque red image with row stride 8: two padding bytes
(value 9) trail each row. -/
def examplePixbufPadded : Pixbuf :=
  ⟨GDK_COLORSPACE_RGB, 3, 8, false, 2, 2, 8,
    [255, 0, 0, 255, 0, 0, 9, 9, 255, 0, 0, 255, 0, 0, 9, 9]⟩

/-- A 1×1 RGBA pixbuf with an alpha channel. -/
def examplePixbufAlpha : Pixbuf :=
  ⟨GDK_COLORSPACE_RGB, 4, 8, true, 1, 1, 4, [1, 2, 3, 4]⟩

/-- A loader outcome whose write step fails with a native error. -/
def failingLoader : LoaderOutcome :=
  ⟨false, some ⟨some "Unrecognized image file format"⟩, true, none, none, none⟩

/-- The same failing write/close outcome with a different format name and
pixbuf, to exhibit that those fields are never reached. -/
def failingLoaderAlt : LoaderOutcome :=
  ⟨false, some ⟨some "Unrecognized image file format"⟩, true, none,
    some "png", some examplePixbuf⟩

/-- A loader outcome that reports success on write and close but yields a
NULL pixbuf. -/
def nullPixbufLoader : LoaderOutcome :=
  ⟨true, none, true, none, some "png", none⟩

/-- A PNG loader oracle that tags its output `FORMAT_ARGB32`. -/
def trivialPngLoader : PngLoader :=
  ⟨fun bs => ⟨CairoFormat.ARGB32, 0, 0, 0, bs⟩, fun _ => rfl⟩

/-- A `save_to_buffer` oracle with a constant outcome. -/
def constSave (r : SaveToBufferOutcome) :
    String → List (String × String) → SaveToBufferOutcome :=
  fun _ _ => r

/-! List-indexing lemmas for the slice primitives. -/

theorem getD_range_map {α : Type} (f : Nat → α) (n j : Nat) (d : α) (h : j < n) :
    ((List.range n).map f).getD j d = f j := by
  rw [List.getD_eq_getElem?_getD, List.getElem?_map, List.getElem?_range h]
  rfl

theorem length_pyslice (l : List Nat) (start stop step : Nat) :
    (pyslice l start stop step).length =
      (if start < min stop l.length then
        (min stop l.length - start + step - 1) / step else 0) := by
  simp [pyslice]

theorem getD_pyslice {l : List Nat} {start stop step i : Nat} {d : Nat}
    (h : i < (pyslice l start stop step).length) :
    (pyslice l start stop step).getD i d = l.getD (start + i * step) 0 := by
  unfold pyslice at h ⊢
  simp only [List.length_map, List.length_range] at h
  exact getD_range_map _ _ _ _ h

theorem length_pyassign (l : List Nat) (start stop step : Nat) (vs : List Nat) :
    (pyassign l start stop step vs).length = l.length := by
  simp [pyassign]

theorem getD_pyassign_nomod {l vs : List Nat} {start stop step j : Nat}
    (h : (j - start) % step ≠ 0 ∨ j < start ∨ stop ≤ j) :
    (pyassign l start stop step vs).getD j 0 = l.getD j 0 := by
  by_cases hj : j < l.length
  · unfold pyassign
    rw [getD_range_map _ _ _ _ hj, if_neg]
    rintro ⟨h1, h2, h3⟩
    omega
  · push_neg at hj
    rw [List.getD_eq_getElem?_getD, List.getD_eq_getElem?_getD,
      List.getElem?_eq_none (by simpa [length_pyassign] using hj),
      List.getElem?_eq_none (by simpa using hj)]

theorem getD_pyassign_mem {l vs : List Nat} {start stop step j : Nat}
    (hj : j < l.length) (h1 : start ≤ j) (h2 : j < stop)
    (h3 : (j - start) % step = 0) :
    (pyassign l start stop step vs).getD j 0 =
      vs.getD ((j - start) / step) (l.getD j 0) := by
  unfold pyassign
  rw [getD_range_map _ _ _ _ hj, if_pos ⟨h1, by omega, h3⟩]

/-! The three channel streams read from a source row. -/

theorem getD_red (pixels : List Nat) (o w x : Nat) {d : Nat} (hx : x < w)
    (hle : o + w * 3 ≤ pixels.length) :
    (pyslice pixels o (o + w * 3) 3).getD x d = pixels.getD (o + x * 3) 0 := by
  apply getD_pyslice
  rw [length_pyslice]
  split
  · omega
  · omega

theorem getD_green (pixels : List Nat) (o w x : Nat) {d : Nat} (hx : x < w)
    (hle : o + w * 3 ≤ pixels.length) :
    (pyslice pixels (o + 1) (o + w * 3) 3).getD x d =
      pixels.getD (o + (x * 3 + 1)) 0 := by
  rw [getD_pyslice, show o + 1 + x * 3 = o + (x * 3 + 1) from by omega]
  rw [length_pyslice]
  split
  · omega
  · omega

theorem getD_blue (pixels : List Nat) (o w x : Nat) {d : Nat} (hx : x < w)
    (hle : o + w * 3 ≤ pixels.length) :
    (pyslice pixels (o + 2) (o + w * 3) 3).getD x d =
      pixels.getD (o + (x * 3 + 2)) 0 := by
  rw [getD_pyslice, show o + 2 + x * 3 = o + (x * 3 + 2) from by omega]
  rw [length_pyslice]
  split
  · omega
  · omega

theorem getD_replicate_lt {α : Type} {a d : α} {n i : Nat} (h : i < n) :
    (List.replicate n a).getD i d = a := by
  rw [List.getD_eq_getElem?_getD, List.getElem?_replicate, if_pos h]
  rfl

/-! Per-byte values written by one row conversion, little endian. -/

theorem getD_convertRow_le0 {pixels : List Nat} {rs w : Nat} {data : List Nat}
    {y x : Nat} (hx : x < w)
    (hdata : format_stride_for_width w * y + w * 4 ≤ data.length)
    (hpix : rs * y + w * 3 ≤ pixels.length) :
    (convertRow false pixels rs w data y).getD
        (format_stride_for_width w * y + x * 4) 0 =
      pixels.getD (rs * y + (x * 3 + 2)) 0 := by
  have hcs : format_stride_for_width w = 4 * w := rfl
  unfold convertRow
  simp only [Bool.false_eq_true, if_false]
  rw [getD_pyassign_mem (by simp only [length_pyassign]; omega) (by omega)
    (by omega) (by omega)]
  rw [show (format_stride_for_width w * y + x * 4 -
    format_stride_for_width w * y) / 4 = x from by omega]
  exact getD_blue pixels (rs * y) w x hx hpix

theorem getD_convertRow_le1 {pixels : List Nat} {rs w : Nat} {data : List Nat}
    {y x : Nat} (hx : x < w)
    (hdata : format_stride_for_width w * y + w * 4 ≤ data.length)
    (hpix : rs * y + w * 3 ≤ pixels.length) :
    (convertRow false pixels rs w data y).getD
        (format_stride_for_width w * y + x * 4 + 1) 0 =
      pixels.getD (rs * y + (x * 3 + 1)) 0 := by
  have hcs : format_stride_for_width w = 4 * w := rfl
  unfold convertRow
  simp only [Bool.false_eq_true, if_false]
  rw [getD_pyassign_nomod (by omega)]
  rw [getD_pyassign_mem (by simp only [length_pyassign]; omega) (by omega)
    (by omega) (by omega)]
  rw [show (format_stride_for_width w * y + x * 4 + 1 -
    (format_stride_for_width w * y + 1)) / 4 = x from by omega]
  exact getD_green pixels (rs * y) w x hx hpix

theorem getD_convertRow_le2 {pixels : List Nat} {rs w : Nat} {data : List Nat}
    {y x : Nat} (hx : x < w)
    (hdata : format_stride_for_width w * y + w * 4 ≤ data.length)
    (hpix : rs * y + w * 3 ≤ pixels.length) :
    (convertRow false pixels rs w data y).getD
        (format_stride_for_width w * y + x * 4 + 2) 0 =
      pixels.getD (rs * y + x * 3) 0 := by
  have hcs : format_stride_for_width w = 4 * w := rfl
  unfold convertRow
  simp only [Bool.false_eq_true, if_false]
  rw [getD_pyassign_nomod (by omega)]
  rw [getD_pyassign_nomod (by omega)]
  rw [getD_pyassign_mem (by simp only [length_pyassign]; omega) (by omega)
    (by omega) (by omega)]
  rw [show (format_stride_for_width w * y + x * 4 + 2 -
    (format_stride_for_width w * y + 2)) / 4 = x from by omega]
  exact getD_red pixels (rs * y) w x hx hpix

theorem getD_convertRow_le3 {pixels : List Nat} {rs w : Nat} {data : List Nat}
    {y x : Nat} (hx : x < w)
    (hdata : format_stride_for_width w * y + w * 4 ≤ data.length)
    (hpix : rs * y + w * 3 ≤ pixels.length) :
    (convertRow false pixels rs w data y).getD
        (format_stride_for_width w * y + x * 4 + 3) 0 = 255 := by
  have hcs : format_stride_for_width w = 4 * w := rfl
  unfold convertRow
  simp only [Bool.false_eq_true, if_false]
  rw [getD_pyassign_nomod (by omega)]
  rw [getD_pyassign_nomod (by omega)]
  rw [getD_pyassign_nomod (by omega)]
  rw [getD_pyassign_mem (by omega) (by omega) (by omega) (by omega)]
  rw [show (format_stride_for_width w * y + x * 4 + 3 -
    (format_stride_for_width w * y + 3)) / 4 = x from by omega]
  exact getD_replicate_lt hx

/-! Per-byte values written by one row conversion, big endian. -/

theorem getD_convertRow_be0 {pixels : List Nat} {rs w : Nat} {data : List Nat}
    {y x : Nat} (hx : x < w)
    (hdata : format_stride_for_width w * y + w * 4 ≤ data.length)
    (hpix : rs * y + w * 3 ≤ pixels.length) :
    (convertRow true pixels rs w data y).getD
        (format_stride_for_width w * y + x * 4) 0 = 255 := by
  have hcs : format_stride_for_width w = 4 * w := rfl
  unfold convertRow
  simp only [if_true]
  rw [getD_pyassign_nomod (by omega)]
  rw [getD_pyassign_nomod (by omega)]
  rw [getD_pyassign_nomod (by omega)]
  rw [getD_pyassign_mem (by omega) (by omega) (by omega) (by omega)]
  rw [show (format_stride_for_width w * y + x * 4 -
    format_stride_for_width w * y) / 4 = x from by omega]
  exact getD_replicate_lt hx

theorem getD_convertRow_be1 {pixels : List Nat} {rs w : Nat} {data : List Nat}
    {y x : Nat} (hx : x < w)
    (hdata : format_stride_for_width w * y + w * 4 ≤ data.length)
    (hpix : rs * y + w * 3 ≤ pixels.length) :
    (convertRow true pixels rs w data y).getD
        (format_stride_for_width w * y + x * 4 + 1) 0 =
      pixels.getD (rs * y + x * 3) 0 := by
  have hcs : format_stride_for_width w = 4 * w := rfl
  unfold convertRow
  simp only [if_true]
  rw [getD_pyassign_nomod (by omega)]
  rw [getD_pyassign_nomod (by omega)]
  rw [getD_pyassign_mem (by simp only [length_pyassign]; omega) (by omega)
    (by omega) (by omega)]
  rw [show (format_stride_for_width w * y + x * 4 + 1 -
    (format_stride_for_width w * y + 1)) / 4 = x from by omega]
  exact getD_red pixels (rs * y) w x hx hpix

theorem getD_convertRow_be2 {pixels : List Nat} {rs w : Nat} {data : List Nat}
    {y x : Nat} (hx : x < w)
    (hdata : format_stride_for_width w * y + w * 4 ≤ data.length)
    (hpix : rs * y + w * 3 ≤ pixels.length) :
    (convertRow true pixels rs w data y).getD
        (format_stride_for_width w * y + x * 4 + 2) 0 =
      pixels.getD (rs * y + (x * 3 + 1)) 0 := by
  have hcs : format_stride_for_width w = 4 * w := rfl
  unfold convertRow
  simp only [if_true]
  rw [getD_pyassign_nomod (by omega)]
  rw [getD_pyassign_mem (by simp only [length_pyassign]; omega) (by omega)
    (by omega) (by omega)]
  rw [show (format_stride_for_width w * y + x * 4 + 2 -
    (format_stride_for_width w * y + 2)) / 4 = x from by omega]
  exact getD_green pixels (rs * y) w x hx hpix

theorem getD_convertRow_be3 {pixels : List Nat} {rs w : Nat} {data : List Nat}
    {y x : Nat} (hx : x < w)
    (hdata : format_stride_for_width w * y + w * 4 ≤ data.length)
    (hpix : rs * y + w * 3 ≤ pixels.length) :
    (convertRow true pixels rs w data y).getD
        (format_stride_for_width w * y + x * 4 + 3) 0 =
      pixels.getD (rs * y + (x * 3 + 2)) 0 := by
  have hcs : format_stride_for_width w = 4 * w := rfl
  unfold convertRow
  simp only [if_true]
  rw [getD_pyassign_mem (by simp only [length_pyassign]; omega) (by omega)
    (by omega) (by omega)]
  rw [show (format_stride_for_width w * y + x * 4 + 3 -
    (format_stride_for_width w * y + 3)) / 4 = x from by omega]
  exact getD_blue pixels (rs * y) w x hx hpix

/-! A row conversion leaves other rows untouched, and preserves length. -/

theorem getD_convertRow_out (be : Bool) (pixels : List Nat) (rs w : Nat)
    (data : List Nat) (y j : Nat)
    (h : j < format_stride_for_width w * y ∨
      format_stride_for_width w * y + w * 4 ≤ j) :
    (convertRow be pixels rs w data y).getD j 0 = data.getD j 0 := by
  have hcs : format_stride_for_width w = 4 * w := rfl
  unfold convertRow
  cases be
  · simp only [Bool.false_eq_true, if_false]
    rw [getD_pyassign_nomod (by omega), getD_pyassign_nomod (by omega),
      getD_pyassign_nomod (by omega), getD_pyassign_nomod (by omega)]
  · simp only [if_true]
    rw [getD_pyassign_nomod (by omega), getD_pyassign_nomod (by omega),
      getD_pyassign_nomod (by omega), getD_pyassign_nomod (by omega)]

theorem length_convertRow (be : Bool) (pixels : List Nat) (rs w : Nat)
    (data : List Nat) (y : Nat) :
    (convertRow be pixels rs w data y).length = data.length := by
  unfold convertRow
  cases be
  · simp only [Bool.false_eq_true, if_false, length_pyassign]
  · simp only [if_true, length_pyassign]

theorem length_foldl_convertRow (be : Bool) (pixels : List Nat) (rs w : Nat)
    (ys : List Nat) (init : List Nat) :
    (ys.foldl (convertRow be pixels rs w) init).length = init.length := by
  induction ys generalizing init with
  | nil => rfl
  | cons y ys ih => rw [List.foldl_cons, ih, length_convertRow]

/-- Inside row `y`, the whole loop's output agrees with the output just
after row `y` was converted: later rows write elsewhere. -/
theorem getD_fold_row {be : Bool} {pixels : List Nat} {rs w : Nat}
    {n : Nat} {init : List Nat} {y j : Nat} (hy : y < n)
    (hj2 : j < format_stride_for_width w * y + w * 4) :
    ((List.range n).foldl (convertRow be pixels rs w) init).getD j 0 =
      (convertRow be pixels rs w
        ((List.range y).foldl (convertRow be pixels rs w) init) y).getD j 0 := by
  have hcs : format_stride_for_width w = 4 * w := rfl
  induction n with
  | zero => omega
  | succ n ih =>
    rw [List.range_succ, List.foldl_append, List.foldl_cons, List.foldl_nil]
    rcases Nat.lt_or_ge y n with hlt | hge
    · rw [getD_convertRow_out]
      · exact ih hlt
      · left
        have h1 : format_stride_for_width w * (y + 1) ≤
            format_stride_for_width w * n := Nat.mul_le_mul_left _ hlt
        have h2 : format_stride_for_width w * (y + 1) =
            format_stride_for_width w * y + format_stride_for_width w :=
          Nat.mul_succ _ _
        omega
    · have : y = n := by omega
      subst this
      rfl

theorem length_slicesData (big_endian : Bool) (p : Pixbuf) :
    (slicesData big_endian p).length =
      format_stride_for_width p.width * p.height := by
  unfold slicesData
  rw [length_foldl_convertRow, List.length_replicate]

/-! Per-byte values of the completed destination buffer. -/

theorem getD_slicesData_le (p : Pixbuf) (x y : Nat) (hx : x < p.width)
    (hy : y < p.height)
    (hpix : p.rowstride * y + p.width * 3 ≤ p.pixels.length) :
    ((slicesData false p).getD (format_stride_for_width p.width * y + x * 4) 0 =
        p.pixels.getD (p.rowstride * y + (x * 3 + 2)) 0) ∧
    ((slicesData false p).getD
        (format_stride_for_width p.width * y + x * 4 + 1) 0 =
        p.pixels.getD (p.rowstride * y + (x * 3 + 1)) 0) ∧
    ((slicesData false p).getD
        (format_stride_for_width p.width * y + x * 4 + 2) 0 =
        p.pixels.getD (p.rowstride * y + x * 3) 0) ∧
    ((slicesData false p).getD
        (format_stride_for_width p.width * y + x * 4 + 3) 0 = 255) := by
  have hcs : format_stride_for_width p.width = 4 * p.width := rfl
  have hdata : format_stride_for_width p.width * y + p.width * 4 ≤
      ((List.range y).foldl (convertRow false p.pixels p.rowstride p.width)
        (List.replicate (format_stride_for_width p.width * p.height) 0)).length := by
    rw [length_foldl_convertRow, List.length_replicate]
    have h1 : format_stride_for_width p.width * (y + 1) ≤
        format_stride_for_width p.width * p.height := Nat.mul_le_mul_left _ hy
    have h2 : format_stride_for_width p.width * (y + 1) =
        format_stride_for_width p.width * y + format_stride_for_width p.width :=
      Nat.mul_succ _ _
    omega
  unfold slicesData
  exact ⟨by rw [getD_fold_row hy (by omega)]; exact getD_convertRow_le0 hx hdata hpix,
    by rw [getD_fold_row hy (by omega)]; exact getD_convertRow_le1 hx hdata hpix,
    by rw [getD_fold_row hy (by omega)]; exact getD_convertRow_le2 hx hdata hpix,
    by rw [getD_fold_row hy (by omega)]; exact getD_convertRow_le3 hx hdata hpix⟩

theorem getD_slicesData_be (p : Pixbuf) (x y : Nat) (hx : x < p.width)
    (hy : y < p.height)
    (hpix : p.rowstride * y + p.width * 3 ≤ p.pixels.length) :
    ((slicesData true p).getD (format_stride_for_width p.width * y + x * 4) 0 =
        255) ∧
    ((slicesData true p).getD
        (format_stride_for_width p.width * y + x * 4 + 1) 0 =
        p.pixels.getD (p.rowstride * y + x * 3) 0) ∧
    ((slicesData true p).getD
        (format_stride_for_width p.width * y + x * 4 + 2) 0 =
        p.pixels.getD (p.rowstride * y + (x * 3 + 1)) 0) ∧
    ((slicesData true p).getD
        (format_stride_for_width p.width * y + x * 4 + 3) 0 =
        p.pixels.getD (p.rowstride * y + (x * 3 + 2)) 0) := by
  have hcs : format_stride_for_width p.width = 4 * p.width := rfl
  have hdata : format_stride_for_width p.width * y + p.width * 4 ≤
      ((List.range y).foldl (convertRow true p.pixels p.rowstride p.width)
        (List.replicate (format_stride_for_width p.width * p.height) 0)).length := by
    rw [length_foldl_convertRow, List.length_replicate]
    have h1 : format_stride_for_width p.width * (y + 1) ≤
        format_stride_for_width p.width * p.height := Nat.mul_le_mul_left _ hy
    have h2 : format_stride_for_width p.width * (y + 1) =
        format_stride_for_width p.width * y + format_stride_for_width p.width :=
      Nat.mul_succ _ _
    omega
  unfold slicesData
  exact ⟨by rw [getD_fold_row hy (by omega)]; exact getD_convertRow_be0 hx hdata hpix,
    by rw [getD_fold_row hy (by omega)]; exact getD_convertRow_be1 hx hdata hpix,
    by rw [getD_fold_row hy (by omega)]; exact getD_convertRow_be2 hx hdata hpix,
    by rw [getD_fold_row hy (by omega)]; exact getD_convertRow_be3 hx hdata hpix⟩

/-! Index decomposition and list extensionality through `getD`. -/

theorem pixel_index_decomp {w h i : Nat}
    (hi : i < format_stride_for_width w * h) :
    ∃ y x c, y < h ∧ x < w ∧ c < 4 ∧
      i = format_stride_for_width w * y + x * 4 + c := by
  have hcs : format_stride_for_width w = 4 * w := rfl
  rw [hcs] at hi
  simp only [hcs]
  have hw : 0 < w := by
    by_contra hw0
    have hzero : w = 0 := by omega
    rw [hzero] at hi
    omega
  have hq := Nat.div_add_mod i (4 * w)
  have hr : i % (4 * w) < 4 * w := Nat.mod_lt _ (by omega)
  exact ⟨i / (4 * w), i % (4 * w) / 4, i % (4 * w) % 4,
    Nat.div_lt_of_lt_mul hi, by omega, by omega, by omega⟩

theorem list_eq_of_getD {l r : List Nat} (hlen : l.length = r.length)
    (h : ∀ i, i < l.length → l.getD i 0 = r.getD i 0) : l = r := by
  apply List.ext_getElem hlen
  intro i h1 h2
  have h3 := h i h1
  rwa [List.getD_eq_getElem?_getD, List.getD_eq_getElem?_getD,
    List.getElem?_eq_getElem h1, List.getElem?_eq_getElem h2] at h3

/-! Concrete end-to-end evaluations of the embedding (the four pixels of a
2×2 red image, little endian, and a 2×1 image in both byte orders). -/

theorem slicesData_red_2x2 :
    slicesData false examplePixbuf =
      [0, 0, 255, 255, 0, 0, 255, 255, 0, 0, 255, 255, 0, 0, 255, 255] := by
  decide

theorem slicesData_le_order :
    slicesData false ⟨GDK_COLORSPACE_RGB, 3, 8, false, 2, 1, 6, [1, 2, 3, 4, 5, 6]⟩ =
      [3, 2, 1, 255, 6, 5, 4, 255] := by
  decide

theorem slicesData_be_order :
    slicesData true ⟨GDK_COLORSPACE_RGB, 3, 8, false, 2, 1, 6, [1, 2, 3, 4, 5, 6]⟩ =
      [255, 1, 2, 3, 255, 4, 5, 6] := by
  decide

/-! The claims. -/

/-- C1: the strategy selection of `decode_to_image_surface` is a pure,
deterministic function of the capability flag and the bitmap's alpha flag,
checked in priority order with the first match winning: gdk available → the
native fast path; else no alpha → manual slice conversion; else the PNG
round-trip fallback.  The last conjunct: the choice depends on the pixbuf
only through its alpha flag. -/
theorem strategy_selection_pure (gdk_available : Bool) (p : Pixbuf) :
    (gdk_available = true →
      selectedConversion gdk_available p = Strategy.gdk) ∧
    (gdk_available = false → p.has_alpha = false →
      selectedConversion gdk_available p = Strategy.slices) ∧
    (gdk_available = false → p.has_alpha = true →
      selectedConversion gdk_available p = Strategy.png) ∧
    (∀ q : Pixbuf, q.has_alpha = p.has_alpha →
      selectedConversion gdk_available q = selectedConversion gdk_available p) := by
  refine ⟨fun hg => ?_, fun hg ha => ?_, fun hg ha => ?_, fun q hq => ?_⟩
  · simp [selectedConversion, hg]
  · simp [selectedConversion, hg, ha]
  · simp [selectedConversion, hg, ha]
  · simp [selectedConversion, hq]

theorem strategy_selection_pure_witness :
    selectedConversion false examplePixbufAlpha = Strategy.png :=
  (strategy_selection_pure false examplePixbufAlpha).2.2.1 rfl rfl

/-- C2: for a bitmap meeting the slice-conversion precondition and any pixel
`(x, y)`, the native-endian 32-bit word at row offset `cairo_stride * y`,
pixel group `x`, is `0xFFRRGGBB` — alpha `0xFF` in the most significant
byte and the three source bytes at `rowstride*y + 3x, +3x+1, +3x+2` as red,
green, blue; byte order within the 4-byte group is blue, green, red, alpha
on little endian and alpha, red, green, blue on big endian. -/
theorem slices_pixel_roundtrip (big_endian : Bool) (p : Pixbuf) (x y : Nat)
    (hx : x < p.width) (hy : y < p.height)
    (hpix : p.rowstride * y + p.width * 3 ≤ p.pixels.length) :
    wordAt big_endian (slicesData big_endian p)
        (format_stride_for_width p.width * y + x * 4) =
      255 * 2 ^ 24 + p.pixels.getD (p.rowstride * y + x * 3) 0 * 2 ^ 16 +
        p.pixels.getD (p.rowstride * y + (x * 3 + 1)) 0 * 2 ^ 8 +
        p.pixels.getD (p.rowstride * y + (x * 3 + 2)) 0 ∧
    (big_endian = false →
      (slicesData big_endian p).getD
          (format_stride_for_width p.width * y + x * 4) 0 =
        p.pixels.getD (p.rowstride * y + (x * 3 + 2)) 0 ∧
      (slicesData big_endian p).getD
          (format_stride_for_width p.width * y + x * 4 + 1) 0 =
        p.pixels.getD (p.rowstride * y + (x * 3 + 1)) 0 ∧
      (slicesData big_endian p).getD
          (format_stride_for_width p.width * y + x * 4 + 2) 0 =
        p.pixels.getD (p.rowstride * y + x * 3) 0 ∧
      (slicesData big_endian p).getD
          (format_stride_for_width p.width * y + x * 4 + 3) 0 = 255) ∧
    (big_endian = true →
      (slicesData big_endian p).getD
          (format_stride_for_width p.width * y + x * 4) 0 = 255 ∧
      (slicesData big_endian p).getD
          (format_stride_for_width p.width * y + x * 4 + 1) 0 =
        p.pixels.getD (p.rowstride * y + x * 3) 0 ∧
      (slicesData big_endian p).getD
          (format_stride_for_width p.width * y + x * 4 + 2) 0 =
        p.pixels.getD (p.rowstride * y + (x * 3 + 1)) 0 ∧
      (slicesData big_endian p).getD
          (format_stride_for_width p.width * y + x * 4 + 3) 0 =
        p.pixels.getD (p.rowstride * y + (x * 3 + 2)) 0) := by
  cases big_endian
  · obtain ⟨h0, h1, h2, h3⟩ := getD_slicesData_le p x y hx hy hpix
    refine ⟨?_, fun _ => ⟨h0, h1, h2, h3⟩, fun hbe => absurd hbe (by decide)⟩
    unfold wordAt
    simp only [Bool.false_eq_true, if_false]
    rw [h0, h1, h2, h3]
  · obtain ⟨h0, h1, h2, h3⟩ := getD_slicesData_be p x y hx hy hpix
    refine ⟨?_, fun hbe => absurd hbe (by decide), fun _ => ⟨h0, h1, h2, h3⟩⟩
    unfold wordAt
    simp only [if_true]
    rw [h0, h1, h2, h3]

theorem slices_pixel_roundtrip_witness :
    wordAt false (slicesData false examplePixbuf)
        (format_stride_for_width examplePixbuf.width * 1 + 1 * 4) =
      255 * 2 ^ 24 +
        examplePixbuf.pixels.getD (examplePixbuf.rowstride * 1 + 1 * 3) 0 * 2 ^ 16 +
        examplePixbuf.pixels.getD
          (examplePixbuf.rowstride * 1 + (1 * 3 + 1)) 0 * 2 ^ 8 +
        examplePixbuf.pixels.getD
          (examplePixbuf.rowstride * 1 + (1 * 3 + 2)) 0 :=
  (slices_pixel_roundtrip false examplePixbuf 1 1 (by decide) (by decide)
    (by decide)).1

/-- C3: the slice conversion is independent of row padding — two bitmaps
with equal width, height and per-pixel RGB content but different row strides
(each at least `width * 3`) produce byte-for-byte identical buffers; only
the first `width * 3` bytes of each source row matter. -/
theorem slices_padding_independence (big_endian : Bool) (p q : Pixbuf)
    (hw : p.width = q.width) (hh : p.height = q.height)
    (hsp : p.width * 3 ≤ p.rowstride) (hsq : q.width * 3 ≤ q.rowstride)
    (hlp : ∀ y, y < p.height → p.rowstride * y + p.width * 3 ≤ p.pixels.length)
    (hlq : ∀ y, y < q.height → q.rowstride * y + q.width * 3 ≤ q.pixels.length)
    (hcontent : ∀ y, y < p.height → ∀ i, i < p.width * 3 →
      p.pixels.getD (p.rowstride * y + i) 0 =
        q.pixels.getD (q.rowstride * y + i) 0) :
    slicesData big_endian p = slicesData big_endian q := by
  apply list_eq_of_getD
  · rw [length_slicesData, length_slicesData, hw, hh]
  · intro i hi
    rw [length_slicesData] at hi
    obtain ⟨y, x, c, hy, hx, hc, rfl⟩ := pixel_index_decomp hi
    have hy' : y < q.height := hh ▸ hy
    have hx' : x < q.width := hw ▸ hx
    have e : format_stride_for_width p.width = format_stride_for_width q.width := by
      rw [hw]
    rcases (show c = 0 ∨ c = 1 ∨ c = 2 ∨ c = 3 from by omega)
        with rfl | rfl | rfl | rfl <;> cases big_endian
    · simp only [Nat.add_zero]
      rw [(getD_slicesData_le p x y hx hy (hlp y hy)).1, e,
        (getD_slicesData_le q x y hx' hy' (hlq y hy')).1]
      exact hcontent y hy (x * 3 + 2) (by omega)
    · simp only [Nat.add_zero]
      rw [(getD_slicesData_be p x y hx hy (hlp y hy)).1, e,
        (getD_slicesData_be q x y hx' hy' (hlq y hy')).1]
    · rw [(getD_slicesData_le p x y hx hy (hlp y hy)).2.1, e,
        (getD_slicesData_le q x y hx' hy' (hlq y hy')).2.1]
      exact hcontent y hy (x * 3 + 1) (by omega)
    · rw [(getD_slicesData_be p x y hx hy (hlp y hy)).2.1, e,
        (getD_slicesData_be q x y hx' hy' (hlq y hy')).2.1]
      exact hcontent y hy (x * 3) (by omega)
    · rw [(getD_slicesData_le p x y hx hy (hlp y hy)).2.2.1, e,
        (getD_slicesData_le q x y hx' hy' (hlq y hy')).2.2.1]
      exact hcontent y hy (x * 3) (by omega)
    · rw [(getD_slicesData_be p x y hx hy (hlp y hy)).2.2.1, e,
        (getD_slicesData_be q x y hx' hy' (hlq y hy')).2.2.1]
      exact hcontent y hy (x * 3 + 1) (by omega)
    · rw [(getD_slicesData_le p x y hx hy (hlp y hy)).2.2.2, e,
        (getD_slicesData_le q x y hx' hy' (hlq y hy')).2.2.2]
    · rw [(getD_slicesData_be p x y hx hy (hlp y hy)).2.2.2, e,
        (getD_slicesData_be q x y hx' hy' (hlq y hy')).2.2.2]
      exact hcontent y hy (x * 3 + 2) (by omega)

theorem slices_padding_independence_witness :
    slicesData false examplePixbuf = slicesData false examplePixbufPadded :=
  slices_padding_independence false examplePixbuf examplePixbufPadded
    (by decide) (by decide) (by decide) (by decide) (by decide) (by decide)
    (by decide)

/-- C4: the error translator asserts that the success indicator and the
error handle are mutually consistent; with an error present it raises
`ImageLoadingError` carrying the extracted message (or the generic fallback
when the native message is NULL); with no error it returns nothing (the
success type is `Unit` — there is no success value). -/
theorem error_translator_contract (error : Option GError) (return_value : Bool) :
    (return_value ≠ error.isNone →
      handle_g_error error return_value = Except.error PyError.assertionError) ∧
    (∀ e, error = some e → return_value = false →
      handle_g_error error return_value =
        Except.error (PyError.imageLoadingError (gErrorMessage e)) ∧
      (∀ m, e.message = some m → gErrorMessage e = "Pixbuf error: " ++ m) ∧
      (e.message = none → gErrorMessage e = "Pixbuf error")) ∧
    (error = none → return_value = true →
      handle_g_error error return_value = Except.ok ()) := by
  refine ⟨fun h => ?_, fun e he hr => ?_, fun he hr => ?_⟩
  · unfold handle_g_error
    rw [if_neg h]
  · subst he
    subst hr
    refine ⟨rfl, fun m hm => ?_, fun hm => ?_⟩
    · unfold gErrorMessage
      rw [hm]
    · unfold gErrorMessage
      rw [hm]
  · subst he
    subst hr
    rfl

theorem error_translator_contract_witness :
    handle_g_error (some ⟨some "boom"⟩) false =
      Except.error (PyError.imageLoadingError (gErrorMessage ⟨some "boom"⟩)) :=
  ((error_translator_contract (some ⟨some "boom"⟩) false).2.1
    ⟨some "boom"⟩ rfl rfl).1

/-- C5: whenever the loader's write step or close step reports a native
error (with the C convention that the call's boolean return mirrors the
error slot), `decode_to_pixbuf` raises `ImageLoadingError` and returns no
pixbuf; the result is the same whatever the loader's format name and pixbuf
fields hold, since the error aborts before they are retrieved. -/
theorem decode_error_propagation (B B' : List Nat → LoaderOutcome)
    (image_data : List Nat) (width height : Option Nat)
    (hwr : (B image_data).writeRet = (B image_data).writeError.isNone)
    (hcr : (B image_data).closeRet = (B image_data).closeError.isNone)
    (herr : (B image_data).writeError.isSome ∨ (B image_data).closeError.isSome)
    (h1 : (B' image_data).writeRet = (B image_data).writeRet)
    (h2 : (B' image_data).writeError = (B image_data).writeError)
    (h3 : (B' image_data).closeRet = (B image_data).closeRet)
    (h4 : (B' image_data).closeError = (B image_data).closeError) :
    ∃ msg, (decode_to_pixbuf B image_data width height).2 =
        Except.error (PyError.imageLoadingError msg) ∧
      (decode_to_pixbuf B' image_data width height).2 =
        Except.error (PyError.imageLoadingError msg) := by
  rcases hWE : (B image_data).writeError with _ | e
  · rcases hCE : (B image_data).closeError with _ | e
    · rw [hWE, hCE] at herr
      simp at herr
    · refine ⟨gErrorMessage e, ?_, ?_⟩
      · simp [decode_to_pixbuf, handle_g_error, hwr, hcr, hWE, hCE]
      · simp [decode_to_pixbuf, handle_g_error, h1, h2, h3, h4, hwr, hcr,
          hWE, hCE]
  · refine ⟨gErrorMessage e, ?_, ?_⟩
    · simp [decode_to_pixbuf, handle_g_error, hwr, hWE]
    · simp [decode_to_pixbuf, handle_g_error, h1, h2, hwr, hWE]

theorem decode_error_propagation_witness :
    ∃ msg, (decode_to_pixbuf (fun _ => failingLoader)
        [110, 111, 116] none none).2 =
        Except.error (PyError.imageLoadingError msg) ∧
      (decode_to_pixbuf (fun _ => failingLoaderAlt)
        [110, 111, 116] none none).2 =
        Except.error (PyError.imageLoadingError msg) :=
  decode_error_propagation (fun _ => failingLoader) (fun _ => failingLoaderAlt)
    [110, 111, 116] none none (by decide) (by decide) (by decide) (by decide)
    (by decide) (by decide) (by decide)

/-- C6: the PNG round-trip fallback is selected for every alpha bitmap when
gdk is unavailable; it re-encodes through the PNG codec with the single
option `compression = 0`, propagates a re-encoding failure through the
error translator as `ImageLoadingError`, and on success feeds the encoded
bytes to the surface's own PNG loader, whose output carries the
premultiplied `FORMAT_ARGB32` tag. -/
theorem png_fallback_contract (loader : PngLoader)
    (save_to_buffer : String → List (String × String) → SaveToBufferOutcome) :
    (∀ p : Pixbuf, p.has_alpha = true →
      selectedConversion false p = Strategy.png) ∧
    (∀ bs, save_to_buffer "png" [("compression", "0")] = ⟨true, none, bs⟩ →
      pixbuf_to_cairo_png save_to_buffer loader = Except.ok (loader.load bs) ∧
      (loader.load bs).format = CairoFormat.ARGB32) ∧
    (∀ e bs, save_to_buffer "png" [("compression", "0")] =
        ⟨false, some e, bs⟩ →
      pixbuf_to_cairo_png save_to_buffer loader =
        Except.error (PyError.imageLoadingError (gErrorMessage e))) := by
  refine ⟨fun p hp => ?_, fun bs h => ⟨?_, loader.load_argb32 bs⟩,
    fun e bs h => ?_⟩
  · simp [selectedConversion, hp]
  · simp [pixbuf_to_cairo_png, h, handle_g_error]
  · simp [pixbuf_to_cairo_png, h, handle_g_error]

theorem png_fallback_contract_witness :
    pixbuf_to_cairo_png (constSave ⟨true, none, [1, 2, 3]⟩) trivialPngLoader =
      Except.ok (trivialPngLoader.load [1, 2, 3]) :=
  ((png_fallback_contract trivialPngLoader
    (constSave ⟨true, none, [1, 2, 3]⟩)).2.1 [1, 2, 3] rfl).1

/-- C7: when write and close both report success but the loader yields a
NULL pixbuf, `decode_to_pixbuf` raises `ImageLoadingError` (not an
assertion failure) with the fixed message. -/
theorem decode_null_pixbuf_raises (B : List Nat → LoaderOutcome)
    (image_data : List Nat) (width height : Option Nat)
    (hwr : (B image_data).writeRet = true)
    (hwe : (B image_data).writeError = none)
    (hcr : (B image_data).closeRet = true)
    (hce : (B image_data).closeError = none)
    (hpb : (B image_data).pixbuf = none) :
    (decode_to_pixbuf B image_data width height).2 =
      Except.error (PyError.imageLoadingError
        "Not enough image data (got a NULL pixbuf.)") := by
  simp [decode_to_pixbuf, handle_g_error, hwr, hwe, hcr, hce, hpb]

theorem decode_null_pixbuf_raises_witness :
    (decode_to_pixbuf (fun _ => nullPixbufLoader) [137, 80] none none).2 =
      Except.error (PyError.imageLoadingError
        "Not enough image data (got a NULL pixbuf.)") :=
  decode_null_pixbuf_raises (fun _ => nullPixbufLoader) [137, 80] none none
    rfl rfl rfl rfl rfl

/-- C8: `pixbuf_to_cairo_slices` treats precondition violations as fatal
contract errors: a pixbuf whose colorspace is not RGB, whose channel count
is not 3, or whose bits-per-sample is not 8 fails with `AssertionError`,
never `ImageLoadingError`; a pixbuf satisfying all three preconditions
converts without any error. -/
theorem slices_precondition_contract (big_endian : Bool) (p : Pixbuf) :
    (¬(p.colorspace = GDK_COLORSPACE_RGB ∧ p.n_channels = 3 ∧
        p.bits_per_sample = 8) →
      pixbuf_to_cairo_slices big_endian p =
        Except.error PyError.assertionError) ∧
    ((p.colorspace = GDK_COLORSPACE_RGB ∧ p.n_channels = 3 ∧
        p.bits_per_sample = 8) →
      pixbuf_to_cairo_slices big_endian p = Except.ok
        ⟨CairoFormat.RGB24, p.width, p.height,
          format_stride_for_width p.width, slicesData big_endian p⟩) := by
  constructor
  · intro h
    unfold pixbuf_to_cairo_slices
    split_ifs with h1 h2 h3
    · exact absurd ⟨h1, h2, h3⟩ h
    · rfl
    · rfl
    · rfl
  · rintro ⟨h1, h2, h3⟩
    unfold pixbuf_to_cairo_slices
    rw [if_pos h1, if_pos h2, if_pos h3]

theorem slices_precondition_contract_witness :
    pixbuf_to_cairo_slices false examplePixbufAlpha =
      Except.error PyError.assertionError :=
  (slices_precondition_contract false examplePixbufAlpha).1 (by decide)

/-- C9: the size hint is forwarded to the loader exactly when both width
and height are given and nonzero; otherwise no size request is made and the
whole call behaves exactly as with no hint at all — the lone hint is
silently ignored. -/
theorem decode_size_hint (B : List Nat → LoaderOutcome) (image_data : List Nat)
    (width height : Option Nat) :
    (∀ a b, (decode_to_pixbuf B image_data width height).1 = some (a, b) ↔
      (width = some a ∧ height = some b ∧ a ≠ 0 ∧ b ≠ 0)) ∧
    ((width = none ∨ height = none ∨ width = some 0 ∨ height = some 0) →
      decode_to_pixbuf B image_data width height =
        decode_to_pixbuf B image_data none none) := by
  rcases width with _ | wv
  · exact ⟨fun a b => by simp [decode_to_pixbuf, truthy], fun _ => rfl⟩
  · rcases height with _ | hv
    · exact ⟨fun a b => by simp [decode_to_pixbuf, truthy],
        fun _ => by simp [decode_to_pixbuf, truthy]⟩
    · constructor
      · intro a b
        by_cases hwv : wv = 0
        · subst hwv
          simp only [decode_to_pixbuf, truthy]
          simp
          omega
        · by_cases hhv : hv = 0
          · subst hhv
            simp only [decode_to_pixbuf, truthy]
            simp
            omega
          · simp only [decode_to_pixbuf, truthy]
            rw [if_pos (by simp [hwv, hhv])]
            simp only [Option.getD_some]
            constructor
            · intro h
              obtain ⟨rfl, rfl⟩ := Prod.mk.injEq wv hv a b ▸ Option.some.inj h
              exact ⟨rfl, rfl, hwv, hhv⟩
            · rintro ⟨ha, hb, h0a, h0b⟩
              rw [Option.some.inj ha, Option.some.inj hb]
      · intro h
        have hz : wv = 0 ∨ hv = 0 := by
          rcases h with h | h | h | h
          · exact Option.noConfusion h
          · exact Option.noConfusion h
          · exact Or.inl (Option.some.inj h)
          · exact Or.inr (Option.some.inj h)
        rcases hz with rfl | rfl
        · simp [decode_to_pixbuf, truthy]
        · simp [decode_to_pixbuf, truthy]

theorem decode_size_hint_witness :
    decode_to_pixbuf (fun _ => nullPixbufLoader) [1, 2] (some 10) none =
      decode_to_pixbuf (fun _ => nullPixbufLoader) [1, 2] none none :=
  (decode_size_hint (fun _ => nullPixbufLoader) [1, 2] (some 10) none).2
    (Or.inr (Or.inl rfl))

/-- C10: the destination buffer of the slice conversion has length exactly
`cairo_stride * height` with `cairo_stride` the `FORMAT_RGB24` stride for
`width`; every destination-row byte beyond `width * 4` (there are none,
since the stride is exactly `4 * width`) stays zero; and the returned
surface is a fresh `FORMAT_RGB24` surface built from that buffer with that
stride. -/
theorem slices_surface_invariants (big_endian : Bool) (p : Pixbuf) :
    (slicesData big_endian p).length =
      format_stride_for_width p.width * p.height ∧
    (∀ y, y < p.height → ∀ j, p.width * 4 ≤ j →
      j < format_stride_for_width p.width →
      (slicesData big_endian p).getD
        (format_stride_for_width p.width * y + j) 0 = 0) ∧
    (∀ s, pixbuf_to_cairo_slices big_endian p = Except.ok s →
      s.format = CairoFormat.RGB24 ∧
      s.stride = format_stride_for_width p.width ∧
      s.width = p.width ∧ s.height = p.height ∧
      s.data = slicesData big_endian p ∧
      s.data.length = s.stride * s.height) := by
  have hcs : format_stride_for_width p.width = 4 * p.width := rfl
  refine ⟨length_slicesData big_endian p, ?_, ?_⟩
  · intro y hy j hj1 hj2
    exact absurd hj2 (by omega)
  · intro s hs
    unfold pixbuf_to_cairo_slices at hs
    split_ifs at hs
    · simp only [Except.ok.injEq] at hs
      subst hs
      exact ⟨rfl, rfl, rfl, rfl, rfl, length_slicesData big_endian p⟩

theorem slices_surface_invariants_witness :
    (slicesData false examplePixbuf).length =
      format_stride_for_width examplePixbuf.width * examplePixbuf.height :=
  (slices_surface_invariants false examplePixbuf).1

end Cairocffi
